import Mathlib

/-!
Verification of the MuSerial point-to-point serial link protocol
(muwerk/munet, src/muserial.h): wire-frame codec, byte-level receiver
state machine, and link-session management.

Modelling conventions used throughout this development:

* Machine bytes are `Nat` values; byte strings (Arduino `String`,
  C strings) are `List Nat` (`Str`).  NUL is the byte `0`.
* `uint8_t` truncation is written `% 256` where the source stores into a
  byte-sized field; the 16-bit payload cursor `curMsg` wraps `% 65536`.
* `malloc` is modelled as always succeeding (the allocation-failure
  branch of the source is not reachable in the model); the payload
  buffer is an `Option (List Nat)` where `none` models the null pointer.
* Hardware-only side effects of the source (connection LED writes,
  `ledTimer`, and the empty `handleTime` hook) have no observable
  protocol effect and are omitted.
* Bus publications are collected in a list of `Event`s; frames that
  reach the command dispatch switch are additionally collected in a
  list of `Dispatch` records.
* `Scheduler::mqttmatch` lives in the external muwerk dependency, not
  in this repository; every definition that needs it takes an arbitrary
  match function `mm : Str → Str → Bool` as a parameter.
-/

/-- Byte strings (Arduino `String` / C strings) are lists of byte values. -/
abbrev Str := List Nat

/-- Start-of-header marker byte (muserial.h line 102: `SOH = 0x01`). -/
def SOH : Nat := 1

/-- Start-of-payload marker byte (`STX = 0x02`). -/
def STX : Nat := 2

/-- End-of-payload marker byte (`ETX = 0x03`). -/
def ETX : Nat := 3

/-- End-of-frame marker byte (`EOT = 0x04`). -/
def EOT : Nat := 4

/-- Protocol version byte (muserial.h line 103: `VER = 0x01`). -/
def VER : Nat := 1

/-- Read timeout in seconds (muserial.h line 95, default 5). -/
def readTimeout : Nat := 5

/-- Ping receive timeout in seconds (muserial.h line 96, default 10). -/
def pingReceiveTimeout : Nat := 10

/-- The byte string `"/link/"` (ASCII), used in connectivity-event topics. -/
def linkPath : Str := [47, 108, 105, 110, 107, 47]

/-- The byte string `"connected"` (ASCII). -/
def connectedMsg : Str := [99, 111, 110, 110, 101, 99, 116, 101, 100]

/-- The byte string `"disconnected"` (ASCII). -/
def disconnectedMsg : Str := [100, 105, 115, 99, 111, 110, 110, 101, 99, 116, 101, 100]

/-- A publication on the local muwerk bus: `pSched->publish(topic, msg, originator)`. -/
structure Event where
  topic : Str
  msg : Str
  originator : Str
deriving DecidableEq

/-- A frame that reached the command-dispatch switch of `MuSerial::loop`
(muserial.h line 447), with its command byte and the two NUL-delimited
payload strings. -/
structure Dispatch where
  cmd : Nat
  topic : Str
  msg : Str
deriving DecidableEq

/-- Receiver states of the byte-level state machine
(muserial.h line 87: `enum LinkState { SYNC, HEADER, MSG, CRC }`). -/
inductive LinkState where
  | SYNC
  | HEADER
  | MSG
  | CRC
deriving DecidableEq

/-- The mutable state of one `MuSerial` instance that the modelled
operations touch (muserial.h lines 88-100 and 319-327).  The 8-byte
header under assembly is kept as the list of bytes received so far
(`hd` written through `pHd[hLen]` in the source, written sequentially),
and likewise the 4-byte footer. -/
structure MuState where
  name : Str
  incomingBlockList : List Str
  outgoingBlockList : List Str
  linkState : LinkState
  hdBuf : List Nat
  msgLen : Nat
  curMsg : Nat
  msgBuf : Option (List Nat)
  allocated : Bool
  foBuf : List Nat
  remoteName : Str
  linkConnected : Bool
  lastRead : Nat
  lastMsg : Nat
deriving DecidableEq

/-- State of a freshly constructed `MuSerial` after `begin()`
(member initializers, muserial.h lines 88-100, and `linkState = SYNC`
at line 178). -/
def initState (nm : Str) : MuState :=
  { name := nm, incomingBlockList := [], outgoingBlockList := [],
    linkState := LinkState.SYNC, hdBuf := [], msgLen := 0, curMsg := 0,
    msgBuf := none, allocated := false, foBuf := [],
    remoteName := [], linkConnected := false, lastRead := 0, lastMsg := 0 }

/-- `MuSerial::crc` (muserial.h lines 260-265): XOR-fold of the buffer
bytes against a running accumulator. -/
def crc (buf : List Nat) (init : Nat) : Nat :=
  buf.foldl (fun a b => a ^^^ b) init

/-- Reading a C string out of a byte buffer: the bytes before the first
NUL (what the casts `(const char *)msgBuf` denote in the source). -/
def cstr (p : List Nat) : List Nat :=
  p.takeWhile (fun b => b != 0)

/-- C `strlen` on a byte buffer that contains a NUL terminator:
the index of the first NUL byte. -/
def strlen (p : List Nat) : Nat :=
  (cstr p).length

/-- `MuSerial::sendOut` (muserial.h lines 282-316): build and emit one
frame.  `num` plays the role of the `uint8_t` block counter `blockNum`.
The returned list is the exact byte sequence written to the serial
port: header, topic, NUL, message, NUL, footer. -/
def sendOut (num cmd : Nat) (topic msg : Str) : List Nat :=
  let len := topic.length + msg.length + 2
  let hdr : List Nat := [SOH, VER, num % 256, cmd, (len / 256) % 256, len % 256, STX, 0]
  let c1 := crc (hdr.drop 1) 0
  let c2 := crc topic c1
  let c3 := crc [0] c2
  let c4 := crc msg c3
  let c5 := crc [0] c4
  let ccrc := crc [ETX, 0] c5
  hdr ++ topic ++ [0] ++ msg ++ [0] ++ [ETX, 0, ccrc, EOT]

/-- A checksum- and marker-valid wire frame carrying an arbitrary
payload byte string: the canonical form of every frame the receiver's
footer validation accepts (header as in `sendOut`, checksum over
header-minus-start-byte, payload, ETX and padding byte). -/
def rawFrame (num cmd : Nat) (payload : List Nat) : List Nat :=
  let len := payload.length
  let hdr : List Nat := [SOH, VER, num % 256, cmd, (len / 256) % 256, len % 256, STX, 0]
  let ccrc := crc [ETX, 0] (crc payload (crc (hdr.drop 1) 0))
  hdr ++ payload ++ [ETX, 0, ccrc, EOT]

/-- The buffer release idiom used on every exit path
(`if (allocated && msgBuf != nullptr) { free(msgBuf); msgBuf = nullptr;
allocated = false; }`, muserial.h lines 420-424, 432-435, 470-473,
491-494). -/
def freeBuf (s : MuState) : MuState :=
  if s.allocated = true ∧ s.msgBuf ≠ none then
    { s with msgBuf := none, allocated := false }
  else s

/-- `MuSerial::outgoingBlockSet` (muserial.h lines 186-202): returns the
updated list and the reported `bool` (false when the entry already
exists; `ustd::array::add` is modelled as always succeeding). -/
def outgoingBlockSet (l : List Str) (topic : Str) : List Str × Bool :=
  if topic ∈ l then (l, false) else (l ++ [topic], true)

/-- `MuSerial::outgoingBlockRemove` (muserial.h lines 204-221): erase
the first entry equal to `topic`; false when no entry matches. -/
def outgoingBlockRemove : List Str → Str → List Str × Bool
  | [], _ => ([], false)
  | x :: xs, topic =>
    if x = topic then (xs, true)
    else
      let r := outgoingBlockRemove xs topic
      (x :: r.1, r.2)

/-- `MuSerial::incomingBlockSet` (muserial.h lines 223-238): same logic
as `outgoingBlockSet` on the incoming list. -/
def incomingBlockSet (l : List Str) (topic : Str) : List Str × Bool :=
  if topic ∈ l then (l, false) else (l ++ [topic], true)

/-- `MuSerial::incomingBlockRemove` (muserial.h lines 240-257): same
logic as `outgoingBlockRemove` on the incoming list. -/
def incomingBlockRemove : List Str → Str → List Str × Bool
  | [], _ => ([], false)
  | x :: xs, topic =>
    if x = topic then (xs, true)
    else
      let r := incomingBlockRemove xs topic
      (x :: r.1, r.2)

/-- `MuSerial::internalPub` (muserial.h lines 329-349): block-list
check, prefix stripping, and republication of a received FORWARD
payload.  Note the source's second strip condition compares
`topic.substring(0, pre2.length())` against `pre1` (line 342).
Returns the emitted publications and the source's `bool` result. -/
def internalPub (mm : Str → Str → Bool) (s : MuState) (topic0 msg : Str) :
    List Event × Bool :=
  if s.incomingBlockList.any (fun pat => mm topic0 pat) then ([], false)
  else
    let pre2 := s.remoteName ++ [47]
    let pre1 := s.name ++ [47]
    let t1 := if topic0.take pre1.length = pre1 then topic0.drop pre1.length else topic0
    let t2 := if t1.take pre2.length = pre1 then t1.drop pre2.length else t1
    ([⟨t2, msg, s.remoteName⟩], true)

/-- The command dispatch executed by `MuSerial::loop` once a frame has
passed the footer marker and checksum checks (muserial.h lines
440-476): payload string validation, MUPING / MQTT handling, buffer
release, return to SYNC.  LED writes and the empty `handleTime` hook
are omitted (no protocol effect). -/
def dispatchMsg (mm : Str → Str → Bool) (now : Nat) (s : MuState) :
    MuState × List Event × List Dispatch :=
  let mb := s.msgBuf.getD []
  if strlen mb + 2 ≤ s.msgLen then
    let s1 := { s with lastMsg := now }
    let pM := mb.drop (strlen mb + 1)
    if strlen pM + strlen mb + 2 ≤ s.msgLen then
      let d : Dispatch := ⟨s.hdBuf.getD 3 0, cstr mb, cstr pM⟩
      if s.hdBuf.getD 3 0 = 0 then
        -- LinkCmd::MUPING
        let rn := cstr pM
        let s2 := { s1 with remoteName := rn, lastMsg := now }
        if s2.linkConnected = false then
          (freeBuf { s2 with linkConnected := true, linkState := LinkState.SYNC },
           [⟨s2.name ++ linkPath ++ rn, connectedMsg, s2.name⟩], [d])
        else
          (freeBuf { s2 with linkState := LinkState.SYNC }, [], [d])
      else if s.hdBuf.getD 3 0 = 1 then
        -- LinkCmd::MQTT
        (freeBuf { s1 with linkState := LinkState.SYNC },
         (internalPub mm s1 (cstr mb) (cstr pM)).1, [d])
      else
        (freeBuf { s1 with linkState := LinkState.SYNC }, [], [d])
    else (freeBuf { s1 with linkState := LinkState.SYNC }, [], [])
  else (freeBuf { s with linkState := LinkState.SYNC }, [], [])

/-- One iteration of the receive `switch` in `MuSerial::loop` for a
single byte read from the serial port (muserial.h lines 367-481),
including the `lastRead` refresh at line 369. -/
def loopReadByte (mm : Str → Str → Bool) (now : Nat) (s0 : MuState) (c : Nat) :
    MuState × List Event × List Dispatch :=
  let s := { s0 with lastRead := now }
  match s.linkState with
  | LinkState.SYNC =>
    if c = SOH then
      ({ s with linkState := LinkState.HEADER, hdBuf := [SOH] }, [], [])
    else (s, [], [])
  | LinkState.HEADER =>
    let hdBuf := s.hdBuf ++ [c]
    if hdBuf.length = 8 then
      if hdBuf.getD 1 0 ≠ VER ∨ hdBuf.getD 6 0 ≠ STX then
        ({ s with linkState := LinkState.SYNC, hdBuf := hdBuf }, [], [])
      else
        let msgLen := 256 * hdBuf.getD 4 0 + hdBuf.getD 5 0
        if msgLen < 1024 then
          ({ s with
              linkState := LinkState.MSG, hdBuf := hdBuf, msgLen := msgLen,
              curMsg := 0, msgBuf := some (List.replicate msgLen 0),
              allocated := true }, [], [])
        else
          ({ s with linkState := LinkState.SYNC, hdBuf := hdBuf }, [], [])
    else ({ s with hdBuf := hdBuf }, [], [])
  | LinkState.MSG =>
    let mb := (s.msgBuf.getD []).set s.curMsg c
    let cur := (s.curMsg + 1) % 65536
    if cur = s.msgLen then
      ({ s with
          linkState := LinkState.CRC, msgBuf := some mb, curMsg := cur,
          foBuf := [] }, [], [])
    else ({ s with msgBuf := some mb, curMsg := cur }, [], [])
  | LinkState.CRC =>
    let foBuf := s.foBuf ++ [c]
    if foBuf.length = 4 then
      let s1 := { s with foBuf := foBuf }
      if foBuf.getD 0 0 ≠ ETX ∨ foBuf.getD 3 0 ≠ EOT then
        (freeBuf { s1 with linkState := LinkState.SYNC }, [], [])
      else
        let ccrc := crc (foBuf.take 2)
          (crc ((s.msgBuf.getD []).take s.msgLen) (crc ((s.hdBuf.drop 1).take 7) 0))
        if ccrc ≠ foBuf.getD 2 0 then
          (freeBuf { s1 with linkState := LinkState.SYNC }, [], [])
        else dispatchMsg mm now s1
    else ({ s with foBuf := foBuf }, [], [])

/-- Feeding a sequence of serial bytes through the receive loop,
accumulating the published events and dispatched frames. -/
def loopReadBytes (mm : Str → Str → Bool) (now : Nat) :
    MuState → List Nat → MuState × List Event × List Dispatch
  | s, [] => (s, [], [])
  | s, c :: cs =>
    let r1 := loopReadByte mm now s c
    let r2 := loopReadBytes mm now r1.1 cs
    (r2.1, r1.2.1 ++ r2.2.1, r1.2.2 ++ r2.2.2)

/-- The timeout checks at the tail of `MuSerial::loop` (muserial.h
lines 483-505): read timeout while mid-frame, ping-receive timeout
while idle.  `now` is the scheduler uptime in seconds. -/
def loopTimeouts (now : Nat) (s : MuState) : MuState × List Event :=
  if s.linkConnected = true ∨ s.linkState ≠ LinkState.SYNC then
    if s.linkState ≠ LinkState.SYNC then
      if readTimeout < now - s.lastRead then
        (freeBuf
           { s with linkState := LinkState.SYNC, linkConnected := false },
         if s.linkConnected = true then
           [⟨s.name ++ linkPath ++ s.remoteName, disconnectedMsg, s.name⟩]
         else [])
      else (s, [])
    else
      if pingReceiveTimeout < now - s.lastMsg then
        ({ s with linkConnected := false },
         if s.linkConnected = true then
           [⟨s.name ++ linkPath ++ s.remoteName, disconnectedMsg, s.name⟩]
         else [])
      else (s, [])
  else (s, [])

/-- `MuSerial::subsMsg` (muserial.h lines 509-528): the outbound bus
handler.  Returns the list of frames written to the serial port
(`num` plays the role of the block counter). -/
def subsMsg (mm : Str → Str → Bool) (num : Nat) (s : MuState)
    (topic msg originator : Str) : List (List Nat) :=
  if originator = s.remoteName then []
  else if s.outgoingBlockList.any (fun pat => mm topic pat) then []
  else
    let pre := s.remoteName ++ [47]
    if topic.take pre.length = pre then [sendOut num 1 topic msg]
    else [sendOut num 1 (pre ++ topic) msg]

/-- Buffer-ownership invariant of the receiver: the `allocated` flag
tracks whether the payload buffer pointer is live, and a buffer is
held exactly while a frame body or footer is being assembled (states
`MSG` and `CRC`); in particular no buffer is held in `SYNC`. -/
def bufInv (s : MuState) : Prop :=
  s.allocated = s.msgBuf.isSome ∧
  (s.allocated = true ↔ (s.linkState = LinkState.MSG ∨ s.linkState = LinkState.CRC))

/-- The trivial topic-match function (empty wildcard semantics), used to
instantiate the external `Scheduler::mqttmatch` parameter in concrete
evaluations. -/
def mmNone : Str → Str → Bool := fun _ _ => false

theorem crc_append (a b : List Nat) (i : Nat) : crc (a ++ b) i = crc b (crc a i) := by
  simp [crc, List.foldl_append]

theorem crc_nul (i : Nat) : crc [0] i = i := by
  simp [crc, Nat.xor_zero]

theorem sendOut_eq_rawFrame (num cmd : Nat) (topic msg : Str) :
    sendOut num cmd topic msg = rawFrame num cmd (topic ++ 0 :: (msg ++ [0])) := by
  have hlen : (topic ++ 0 :: (msg ++ [0])).length = topic.length + msg.length + 2 := by
    simp; omega
  simp only [sendOut, rawFrame, hlen]
  have hcrc : ∀ i : Nat, crc (topic ++ 0 :: (msg ++ [0])) i =
      crc [0] (crc msg (crc [0] (crc topic i))) := by
    intro i
    have : topic ++ 0 :: (msg ++ [0]) = topic ++ ([0] ++ (msg ++ [0])) := by simp
    rw [this, crc_append, crc_append, crc_append]
  rw [hcrc]
  simp

theorem cstr_append_nul (t r : List Nat) (ht : ∀ b ∈ t, b ≠ 0) :
    cstr (t ++ 0 :: r) = t := by
  induction t with
  | nil => simp [cstr]
  | cons a t ih =>
    have ha : (a != 0) = true := by
      simpa using ht a (by simp)
    have ht2 : ∀ b ∈ t, b ≠ 0 := fun b hb => ht b (by simp [hb])
    simp [cstr, List.takeWhile] at ih ⊢
    simp [ha, ih ht2]

theorem strlen_append_nul (t r : List Nat) (ht : ∀ b ∈ t, b ≠ 0) :
    strlen (t ++ 0 :: r) = t.length := by
  rw [strlen, cstr_append_nul t r ht]

theorem drop_append_nul (t r : List Nat) :
    (t ++ 0 :: r).drop (t.length + 1) = r := by
  have h1 : (t ++ 0 :: r).drop t.length = 0 :: r := List.drop_left t (0 :: r)
  have h2 : (t ++ 0 :: r).drop (t.length + 1) = ((t ++ 0 :: r).drop t.length).drop 1 := by
    rw [List.drop_drop]
  rw [h2, h1]
  simp

theorem loopReadBytes_append (mm : Str → Str → Bool) (now : Nat) (s : MuState)
    (a b : List Nat) :
    loopReadBytes mm now s (a ++ b) =
      ((loopReadBytes mm now (loopReadBytes mm now s a).1 b).1,
       (loopReadBytes mm now s a).2.1 ++
         (loopReadBytes mm now (loopReadBytes mm now s a).1 b).2.1,
       (loopReadBytes mm now s a).2.2 ++
         (loopReadBytes mm now (loopReadBytes mm now s a).1 b).2.2) := by
  induction a generalizing s with
  | nil => simp [loopReadBytes]
  | cons c cs ih => simp [loopReadBytes, ih, List.append_assoc]

theorem run_header (mm : Str → Str → Bool) (now : Nat) (s : MuState)
    (n cm h5 l5 : Nat) (hS : s.linkState = LinkState.SYNC)
    (hlen : 256 * h5 + l5 < 1024) :
    loopReadBytes mm now s [1, 1, n, cm, h5, l5, 2, 0] =
      ({ s with
          lastRead := now, linkState := LinkState.MSG,
          hdBuf := [1, 1, n, cm, h5, l5, 2, 0], msgLen := 256 * h5 + l5,
          curMsg := 0, msgBuf := some (List.replicate (256 * h5 + l5) 0),
          allocated := true }, [], []) := by
  obtain ⟨nm, ibl, obl, ls, hb, ml, cmg, mb, al, fb, rn, lc, lr, lm⟩ := s
  simp only [MuState.linkState] at hS
  subst hS
  simp [loopReadBytes, loopReadByte, SOH, VER, STX, hlen]

theorem take_set_succ (l : List Nat) (k c : Nat) (hk : k < l.length) :
    (l.set k c).take (k + 1) = l.take k ++ [c] := by
  rw [List.set_eq_take_cons_drop c hk]
  have hlen : (l.take k).length = k := by
    simp [Nat.min_eq_left (Nat.le_of_lt hk)]
  rw [List.take_append_eq_append_take]
  have h1 : (l.take k).take (k + 1) = l.take k := by
    apply List.take_of_length_le
    omega
  rw [h1, hlen]
  simp

theorem run_msg (mm : Str → Str → Bool) (now : Nat) :
    ∀ (q : List Nat) (s : MuState), s.linkState = LinkState.MSG →
    (s.msgBuf.getD []).length = s.msgLen →
    s.curMsg + q.length = s.msgLen →
    s.msgLen < 65536 → q ≠ [] →
    loopReadBytes mm now s q =
      ({ s with
          lastRead := now, linkState := LinkState.CRC,
          msgBuf := some ((s.msgBuf.getD []).take s.curMsg ++ q),
          curMsg := s.msgLen, foBuf := [] }, [], []) := by
  intro q
  induction q with
  | nil => intro s _ _ _ _ hne; exact absurd rfl hne
  | cons c cs ih =>
    intro s hS hbl hcnt hlt _
    obtain ⟨nm, ibl, obl, ls, hb, ml, cmg, mb, al, fb, rn, lc, lr, lm⟩ := s
    simp only [MuState.linkState] at hS
    subst hS
    simp only [MuState.msgBuf, MuState.msgLen, MuState.curMsg] at hbl hcnt hlt ⊢
    by_cases hcs : cs = []
    · subst hcs
      have h1 : cmg + 1 = ml := by simpa using hcnt
      have hmod : (cmg + 1) % 65536 = cmg + 1 := Nat.mod_eq_of_lt (by omega)
      have hset : (mb.getD []).set cmg c = (mb.getD []).take cmg ++ [c] := by
        have hk : cmg < (mb.getD []).length := by omega
        rw [List.set_eq_take_cons_drop c hk]
        have : (mb.getD []).drop (cmg + 1) = [] := by
          apply List.drop_eq_nil_of_le
          omega
        rw [this]
      have hml : ml % 65536 = ml := Nat.mod_eq_of_lt hlt
      simp [loopReadBytes, loopReadByte, hmod, h1, hset, hml, hlt]
    · have hlt2 : cmg + 1 < ml := by
        have : 0 < cs.length := List.length_pos.mpr hcs
        simp at hcnt
        omega
      have hmod : (cmg + 1) % 65536 = cmg + 1 := Nat.mod_eq_of_lt (by omega)
      have hne2 : (cmg + 1) ≠ ml := by omega
      have hk : cmg < (mb.getD []).length := by
        simp at hcnt
        omega
      have step : loopReadBytes mm now
          (MuState.mk nm ibl obl LinkState.MSG hb ml cmg mb al fb rn lc lr lm) (c :: cs) =
          loopReadBytes mm now
            (MuState.mk nm ibl obl LinkState.MSG hb ml (cmg + 1)
              (some ((mb.getD []).set cmg c)) al fb rn lc now lm) cs := by
        have h0 : loopReadBytes mm now
            (MuState.mk nm ibl obl LinkState.MSG hb ml (cmg + 1)
              (some ((mb.getD []).set cmg c)) al fb rn lc now lm) cs =
            ((loopReadBytes mm now
              (MuState.mk nm ibl obl LinkState.MSG hb ml (cmg + 1)
                (some ((mb.getD []).set cmg c)) al fb rn lc now lm) cs).1,
             (loopReadBytes mm now
              (MuState.mk nm ibl obl LinkState.MSG hb ml (cmg + 1)
                (some ((mb.getD []).set cmg c)) al fb rn lc now lm) cs).2.1,
             (loopReadBytes mm now
              (MuState.mk nm ibl obl LinkState.MSG hb ml (cmg + 1)
                (some ((mb.getD []).set cmg c)) al fb rn lc now lm) cs).2.2) := by
          rfl
        simp [loopReadBytes, loopReadByte, hmod, hne2]
      rw [step]
      have ihr := ih (MuState.mk nm ibl obl LinkState.MSG hb ml (cmg + 1)
          (some ((mb.getD []).set cmg c)) al fb rn lc now lm)
        (by simp) (by simp; omega) (by simp; simp at hcnt; omega) (by simpa using hlt) hcs
      rw [ihr]
      have htake : ((mb.getD []).set cmg c).take (cmg + 1) ++ cs =
          (mb.getD []).take cmg ++ (c :: cs) := by
        rw [take_set_succ _ _ _ hk]
        simp
      simp [htake]

theorem run_raw (mm : Str → Str → Bool) (now : Nat) (s : MuState) (num cmd : Nat)
    (p : List Nat) (hS : s.linkState = LinkState.SYNC) (hp : p.length < 1024)
    (hne : p ≠ []) :
    loopReadBytes mm now s (rawFrame num cmd p) =
      dispatchMsg mm now
        { s with
            lastRead := now, linkState := LinkState.CRC,
            hdBuf := [1, 1, num % 256, cmd, (p.length / 256) % 256, p.length % 256, 2, 0],
            msgLen := p.length, curMsg := p.length, msgBuf := some p, allocated := true,
            foBuf := [3, 0,
              crc [3, 0] (crc p
                (crc [1, num % 256, cmd, (p.length / 256) % 256, p.length % 256, 2, 0] 0)),
              4] } := by
  have hml : 256 * ((p.length / 256) % 256) + p.length % 256 = p.length := by omega
  have hsplit : rawFrame num cmd p =
      [1, 1, num % 256, cmd, (p.length / 256) % 256, p.length % 256, 2, 0] ++
        (p ++ [3, 0,
          crc [3, 0] (crc p
            (crc [1, num % 256, cmd, (p.length / 256) % 256, p.length % 256, 2, 0] 0)),
          4]) := by
    simp [rawFrame, SOH, VER, STX, ETX, EOT]
  rw [hsplit, loopReadBytes_append,
    run_header mm now s (num % 256) cmd ((p.length / 256) % 256) (p.length % 256) hS
      (by omega)]
  rw [loopReadBytes_append]
  rw [run_msg mm now p _ (by simp) (by simp) (by simp; omega) (by simp; omega) hne]
  obtain ⟨nm, ibl, obl, ls, hb, ml, cmg, mb, al, fb, rn, lc, lr, lm⟩ := s
  simp [loopReadBytes, loopReadByte, ETX, EOT, List.take_length, hml]

theorem dispatchMsg_mqtt (mm : Str → Str → Bool) (now : Nat) (s : MuState)
    (t m : Str) (ht : ∀ b ∈ t, b ≠ 0) (hm : ∀ b ∈ m, b ≠ 0)
    (hbuf : s.msgBuf = some (t ++ 0 :: (m ++ [0])))
    (hlen : s.msgLen = t.length + m.length + 2)
    (hcmd : s.hdBuf.getD 3 0 = 1) :
    dispatchMsg mm now s =
      (freeBuf { s with lastMsg := now, linkState := LinkState.SYNC },
       (internalPub mm { s with lastMsg := now } t m).1,
       [⟨1, t, m⟩]) := by
  have h1 : t.length + 2 ≤ t.length + m.length + 2 := by omega
  have h2 : m.length + t.length + 2 ≤ t.length + m.length + 2 := by omega
  simp only [List.getD_eq_getElem?_getD] at hcmd
  simp [dispatchMsg, hbuf, hlen, hcmd, strlen_append_nul t (m ++ [0]) ht,
    drop_append_nul, strlen_append_nul m [] hm, cstr_append_nul t (m ++ [0]) ht,
    cstr_append_nul m [] hm, h1, h2]

theorem dispatchMsg_ping (mm : Str → Str → Bool) (now : Nat) (s : MuState)
    (t m : Str) (ht : ∀ b ∈ t, b ≠ 0) (hm : ∀ b ∈ m, b ≠ 0)
    (hbuf : s.msgBuf = some (t ++ 0 :: (m ++ [0])))
    (hlen : s.msgLen = t.length + m.length + 2)
    (hcmd : s.hdBuf.getD 3 0 = 0) :
    dispatchMsg mm now s =
      (if s.linkConnected = false then
        (freeBuf { s with
            lastMsg := now, remoteName := m, linkConnected := true,
            linkState := LinkState.SYNC },
         [⟨s.name ++ linkPath ++ m, connectedMsg, s.name⟩], [⟨0, t, m⟩])
      else
        (freeBuf { s with
            lastMsg := now, remoteName := m, linkState := LinkState.SYNC },
         [], [⟨0, t, m⟩])) := by
  have h1 : t.length + 2 ≤ t.length + m.length + 2 := by omega
  have h2 : m.length + t.length + 2 ≤ t.length + m.length + 2 := by omega
  simp only [List.getD_eq_getElem?_getD] at hcmd
  simp [dispatchMsg, hbuf, hlen, hcmd, strlen_append_nul t (m ++ [0]) ht,
    drop_append_nul, strlen_append_nul m [] hm, cstr_append_nul t (m ++ [0]) ht,
    cstr_append_nul m [] hm, h1, h2]

theorem dispatchMsg_short (mm : Str → Str → Bool) (now : Nat) (s : MuState)
    (hshort : s.msgLen < strlen (s.msgBuf.getD []) + 2) :
    dispatchMsg mm now s = (freeBuf { s with linkState := LinkState.SYNC }, [], []) := by
  simp only [dispatchMsg]
  rw [if_neg (by omega)]

theorem run_mqtt (mm : Str → Str → Bool) (now : Nat) (s : MuState) (num : Nat)
    (t m : Str) (hS : s.linkState = LinkState.SYNC) (ht : ∀ b ∈ t, b ≠ 0)
    (hm : ∀ b ∈ m, b ≠ 0) (hlen : t.length + m.length + 2 < 1024) :
    (loopReadBytes mm now s (sendOut num 1 t m)).1.linkState = LinkState.SYNC ∧
    (loopReadBytes mm now s (sendOut num 1 t m)).1.allocated = false ∧
    (loopReadBytes mm now s (sendOut num 1 t m)).1.msgBuf = none ∧
    (loopReadBytes mm now s (sendOut num 1 t m)).1.lastMsg = now ∧
    (loopReadBytes mm now s (sendOut num 1 t m)).1.remoteName = s.remoteName ∧
    (loopReadBytes mm now s (sendOut num 1 t m)).1.linkConnected = s.linkConnected ∧
    (loopReadBytes mm now s (sendOut num 1 t m)).2.1 = (internalPub mm s t m).1 ∧
    (loopReadBytes mm now s (sendOut num 1 t m)).2.2 = [⟨1, t, m⟩] := by
  rw [sendOut_eq_rawFrame]
  rw [run_raw mm now s num 1 _ hS (by simp; omega) (by simp)]
  rw [dispatchMsg_mqtt mm now _ t m ht hm (by simp) (by simp; omega) (by simp [List.getD])]
  refine ⟨?_, ?_, ?_, ?_, ?_, ?_, ?_, ?_⟩ <;>
    simp [freeBuf, internalPub]

theorem run_ping (mm : Str → Str → Bool) (now : Nat) (s : MuState) (num : Nat)
    (t m : Str) (hS : s.linkState = LinkState.SYNC) (ht : ∀ b ∈ t, b ≠ 0)
    (hm : ∀ b ∈ m, b ≠ 0) (hlen : t.length + m.length + 2 < 1024) :
    (loopReadBytes mm now s (sendOut num 0 t m)).1.linkState = LinkState.SYNC ∧
    (loopReadBytes mm now s (sendOut num 0 t m)).1.allocated = false ∧
    (loopReadBytes mm now s (sendOut num 0 t m)).1.msgBuf = none ∧
    (loopReadBytes mm now s (sendOut num 0 t m)).1.lastMsg = now ∧
    (loopReadBytes mm now s (sendOut num 0 t m)).1.remoteName = m ∧
    (loopReadBytes mm now s (sendOut num 0 t m)).1.linkConnected = true ∧
    (loopReadBytes mm now s (sendOut num 0 t m)).2.1 =
      (if s.linkConnected = false then
        [⟨s.name ++ linkPath ++ m, connectedMsg, s.name⟩] else []) ∧
    (loopReadBytes mm now s (sendOut num 0 t m)).2.2 = [⟨0, t, m⟩] := by
  rw [sendOut_eq_rawFrame]
  rw [run_raw mm now s num 0 _ hS (by simp; omega) (by simp)]
  rw [dispatchMsg_ping mm now _ t m ht hm (by simp) (by simp; omega) (by simp [List.getD])]
  by_cases hlc : s.linkConnected = false <;>
    refine ⟨?_, ?_, ?_, ?_, ?_, ?_, ?_, ?_⟩ <;>
      simp [freeBuf, hlc]

/-- C1: for every topic and message free of NUL bytes with combined
payload length within the accepted bound, encoding a FORWARD (MQTT)
frame via `sendOut` and feeding the byte sequence to the receiver state
machine yields exactly one dispatched frame whose decoded payload
splits back into exactly the original topic and the original message
(dispatch implies the decoder-side checksum matched the encoder's). -/
theorem C1_forward_roundtrip (mm : Str → Str → Bool) (now : Nat) (s : MuState)
    (num : Nat) (topic msg : Str) (hS : s.linkState = LinkState.SYNC)
    (ht : ∀ b ∈ topic, b ≠ 0) (hm : ∀ b ∈ msg, b ≠ 0)
    (hlen : topic.length + msg.length + 2 < 1024) :
    (loopReadBytes mm now s (sendOut num 1 topic msg)).2.2 = [⟨1, topic, msg⟩] :=
  (run_mqtt mm now s num topic msg hS ht hm hlen).2.2.2.2.2.2.2

/-- Witness for C1 at a concrete topic and message. -/
theorem C1_forward_roundtrip_witness :
    (loopReadBytes mmNone 3 (initState [65]) (sendOut 0 1 [116] [109])).2.2 =
      [⟨1, [116], [109]⟩] :=
  C1_forward_roundtrip mmNone 3 (initState [65]) 0 [116] [109] rfl
    (by decide) (by decide) (by decide)

/-- C2 counterexample: the claim predicts that a FORWARD frame carrying
topic `"x"`, received by node `"A"` with peer `"B"` and an empty
incoming block list, is republished as `"B/x"` (peer prefix plus the
stripped topic).  The code republishes the stripped topic itself: the
published topic is `"x"`, which differs from `"B/x"`. -/
theorem C2_counterexample :
    (loopReadBytes mmNone 7 { initState [65] with remoteName := [66] }
        (sendOut 0 1 [120] [109])).2.1 = [⟨[120], [109], [66]⟩] ∧
    ([120] : Str) ≠ [66, 47, 120] := by
  constructor
  · decide
  · decide

/-- C2 (amended): for every checksum-valid FORWARD frame whose payload
is topic+NUL+message+NUL, `lastMessageAt` is refreshed whether or not
the topic is blocked; if the topic matches a pattern in
`incomingBlockList`, nothing is republished; otherwise a leading
`"<localName>/"` prefix is stripped if present, then
`remoteName.length + 1` further characters are stripped if they again
equal `"<localName>/"` (the source's second strip condition compares
against the local-name prefix), and the message is republished under
the resulting topic itself — no `"<peerName>/"` prefix is added — with
originator = peerName. -/
theorem C2_forward_republish (mm : Str → Str → Bool) (now : Nat) (s : MuState)
    (num : Nat) (topic msg : Str) (hS : s.linkState = LinkState.SYNC)
    (ht : ∀ b ∈ topic, b ≠ 0) (hm : ∀ b ∈ msg, b ≠ 0)
    (hlen : topic.length + msg.length + 2 < 1024) :
    (loopReadBytes mm now s (sendOut num 1 topic msg)).1.lastMsg = now ∧
    (s.incomingBlockList.any (fun pat => mm topic pat) = true →
      (loopReadBytes mm now s (sendOut num 1 topic msg)).2.1 = []) ∧
    (s.incomingBlockList.any (fun pat => mm topic pat) = false →
      (loopReadBytes mm now s (sendOut num 1 topic msg)).2.1 =
        [⟨(let pre1 := s.name ++ [47]
           let pre2 := s.remoteName ++ [47]
           let t1 := if topic.take pre1.length = pre1
                     then topic.drop pre1.length else topic
           if t1.take pre2.length = pre1 then t1.drop pre2.length else t1),
          msg, s.remoteName⟩]) := by
  have h := run_mqtt mm now s num topic msg hS ht hm hlen
  refine ⟨h.2.2.2.1, ?_, ?_⟩
  · intro hb
    rw [h.2.2.2.2.2.2.1]
    simp [internalPub, hb]
  · intro hb
    rw [h.2.2.2.2.2.2.1]
    simp [internalPub, hb]

/-- Witness for C2 (amended) at a concrete frame: node `"A"`, peer
`"B"`, topic `"A/x"`; the local-name prefix is stripped and the frame
is republished as `"x"`. -/
theorem C2_forward_republish_witness :
    (loopReadBytes mmNone 7 { initState [65] with remoteName := [66] }
        (sendOut 0 1 [65, 47, 120] [109])).1.lastMsg = 7 ∧
    (loopReadBytes mmNone 7 { initState [65] with remoteName := [66] }
        (sendOut 0 1 [65, 47, 120] [109])).2.1 = [⟨[120], [109], [66]⟩] := by
  have h := C2_forward_republish mmNone 7
    { initState [65] with remoteName := [66] } 0 [65, 47, 120] [109] rfl
    (by decide) (by decide) (by decide)
  refine ⟨h.1, ?_⟩
  rw [h.2.2 (by decide)]
  decide

/-- C3: evaluation at the failing input.  A header that is valid except
for declaring `payloadLength = 0` leaves the receiver in the `MSG`
(payload accumulation) state with a zero-length allocated buffer, and
the next byte — the would-be footer ETX — is consumed as payload
instead of footer (the claim and spec say a zero-length payload moves
straight to footer accumulation without touching the buffer).  The
out-of-bound half of the claim does hold: a declared length of 1024 is
rejected back to `SYNC` without allocating. -/
theorem C3_zero_length_failing :
    (loopReadBytes mmNone 0 (initState [65]) [1, 1, 0, 1, 0, 0, 2, 0]).1.linkState
        = LinkState.MSG ∧
    (loopReadBytes mmNone 0 (initState [65]) [1, 1, 0, 1, 0, 0, 2, 0]).1.msgLen = 0 ∧
    (loopReadBytes mmNone 0 (initState [65]) [1, 1, 0, 1, 0, 0, 2, 0]).1.allocated
        = true ∧
    (loopReadBytes mmNone 0 (initState [65]) [1, 1, 0, 1, 0, 0, 2, 0, 3]).1.linkState
        = LinkState.MSG ∧
    (loopReadBytes mmNone 0 (initState [65]) [1, 1, 0, 1, 0, 0, 2, 0, 3]).1.curMsg = 1 ∧
    (loopReadBytes mmNone 0 (initState [65]) [1, 1, 0, 1, 4, 0, 2, 0]).1.linkState
        = LinkState.SYNC ∧
    (loopReadBytes mmNone 0 (initState [65]) [1, 1, 0, 1, 4, 0, 2, 0]).1.allocated
        = false ∧
    (loopReadBytes mmNone 0 (initState [65]) [1, 1, 0, 1, 4, 0, 2, 0]).1.msgBuf
        = none := by
  decide

/-- C4 counterexample: prepending one spurious start-byte-valued byte
(0x01) to a valid encoded FORWARD frame (topic `"A"`, message `"B"`)
yields zero dispatched frames, not exactly one: the spurious byte is
taken as the frame start, the real start byte is consumed as the
version field, and header validation then fails on the shifted
payload-start marker, losing the frame. -/
theorem C4_counterexample :
    (loopReadBytes mmNone 0 (initState [65]) (1 :: sendOut 0 1 [65] [66])).2.2 =
      ([] : List Dispatch) := by
  decide

theorem loopReadBytes_cons (mm : Str → Str → Bool) (now : Nat) (s : MuState)
    (c : Nat) (cs : List Nat) :
    loopReadBytes mm now s (c :: cs) =
      ((loopReadBytes mm now (loopReadByte mm now s c).1 cs).1,
       (loopReadByte mm now s c).2.1 ++
         (loopReadBytes mm now (loopReadByte mm now s c).1 cs).2.1,
       (loopReadByte mm now s c).2.2 ++
         (loopReadBytes mm now (loopReadByte mm now s c).1 cs).2.2) := rfl

/-- C4 (amended): feeding the receiver one spurious byte that is not
the start-byte value, immediately followed by a valid encoded FORWARD
frame, still yields exactly one dispatched frame with the original
topic and message: the spurious byte is consumed while in `SYNC` and
ignored.  (A spurious byte equal to the start byte is instead consumed
as the beginning of a new header and the frame is lost.) -/
theorem C4_resync_nonstart (mm : Str → Str → Bool) (now : Nat) (s : MuState)
    (num : Nat) (topic msg : Str) (b : Nat) (hS : s.linkState = LinkState.SYNC)
    (ht : ∀ x ∈ topic, x ≠ 0) (hm : ∀ x ∈ msg, x ≠ 0)
    (hlen : topic.length + msg.length + 2 < 1024) (hb : b ≠ SOH) :
    (loopReadBytes mm now s (b :: sendOut num 1 topic msg)).2.2 =
      [⟨1, topic, msg⟩] := by
  obtain ⟨nm, ibl, obl, ls, hbp, ml, cmg, mb, al, fb, rn, lc, lr, lm⟩ := s
  simp only [MuState.linkState] at hS
  subst hS
  have hstep : loopReadByte mm now
      (MuState.mk nm ibl obl LinkState.SYNC hbp ml cmg mb al fb rn lc lr lm) b =
      (MuState.mk nm ibl obl LinkState.SYNC hbp ml cmg mb al fb rn lc now lm,
       [], []) := by
    simp [loopReadByte, hb]
  have hrest := (run_mqtt mm now
      (MuState.mk nm ibl obl LinkState.SYNC hbp ml cmg mb al fb rn lc now lm)
      num topic msg rfl ht hm hlen).2.2.2.2.2.2.2
  rw [loopReadBytes_cons, hstep]
  simpa using hrest

/-- Witness for C4 (amended) with the spurious byte 0. -/
theorem C4_resync_nonstart_witness :
    (loopReadBytes mmNone 3 (initState [65]) (0 :: sendOut 0 1 [116] [109])).2.2 =
      [⟨1, [116], [109]⟩] :=
  C4_resync_nonstart mmNone 3 (initState [65]) 0 [116] [109] 0 rfl
    (by decide) (by decide) (by decide) (by decide)

theorem freeBuf_linkState (s : MuState) : (freeBuf s).linkState = s.linkState := by
  simp only [freeBuf]
  split <;> rfl

theorem freeBuf_linkConnected (s : MuState) :
    (freeBuf s).linkConnected = s.linkConnected := by
  simp only [freeBuf]
  split <;> rfl

theorem freeBuf_remoteName (s : MuState) : (freeBuf s).remoteName = s.remoteName := by
  simp only [freeBuf]
  split <;> rfl

theorem freeBuf_lastMsg (s : MuState) : (freeBuf s).lastMsg = s.lastMsg := by
  simp only [freeBuf]
  split <;> rfl

theorem dispatchMsg_frees (mm : Str → Str → Bool) (now : Nat) (s : MuState)
    (hal : s.allocated = true) (hmb : s.msgBuf ≠ none) :
    (dispatchMsg mm now s).1.linkState = LinkState.SYNC ∧
    (dispatchMsg mm now s).1.allocated = false ∧
    (dispatchMsg mm now s).1.msgBuf = none := by
  simp only [dispatchMsg]
  split_ifs <;> simp [freeBuf, hal, hmb]

theorem dispatchMsg_connected (mm : Str → Str → Bool) (now : Nat) (s : MuState) :
    ((dispatchMsg mm now s).1.linkConnected = true →
      s.linkConnected = true ∨ s.hdBuf.getD 3 0 = 0) ∧
    (s.linkConnected = true → (dispatchMsg mm now s).1.linkConnected = true) := by
  simp only [dispatchMsg]
  split_ifs <;> simp_all [freeBuf_linkConnected]

theorem bufInv_sync_free (s : MuState) (h : bufInv s)
    (hS : s.linkState = LinkState.SYNC) : s.allocated = false ∧ s.msgBuf = none := by
  obtain ⟨h1, h2⟩ := h
  have hal : s.allocated = false := by
    cases hcase : s.allocated
    · rfl
    · have := h2.mp hcase
      rw [hS] at this
      simp at this
  refine ⟨hal, ?_⟩
  rw [hal] at h1
  cases hmb : s.msgBuf
  · rfl
  · rw [hmb] at h1
    simp at h1

theorem bufInv_loopReadByte (mm : Str → Str → Bool) (now : Nat) (s : MuState)
    (c : Nat) (h : bufInv s) : bufInv (loopReadByte mm now s c).1 := by
  obtain ⟨h1, h2⟩ := h
  obtain ⟨nm, ibl, obl, ls, hbp, ml, cmg, mb, al, fb, rn, lc, lr, lm⟩ := s
  simp only [MuState.allocated, MuState.msgBuf, MuState.linkState] at h1 h2
  cases ls with
  | SYNC =>
    have hal : al = false := by
      cases hc : al
      · rfl
      · have := h2.mp hc
        simp at this
    have hmb : mb = none := by
      rw [hal] at h1
      cases hc : mb
      · rfl
      · rw [hc] at h1
        simp at h1
    subst hal hmb
    simp only [loopReadByte]
    split_ifs <;> simp [bufInv]
  | HEADER =>
    have hal : al = false := by
      cases hc : al
      · rfl
      · have := h2.mp hc
        simp at this
    have hmb : mb = none := by
      rw [hal] at h1
      cases hc : mb
      · rfl
      · rw [hc] at h1
        simp at h1
    subst hal hmb
    simp only [loopReadByte]
    split_ifs <;> simp [bufInv]
  | MSG =>
    have hal : al = true := h2.mpr (Or.inl rfl)
    subst hal
    simp only [loopReadByte]
    split_ifs <;> simp [bufInv]
  | CRC =>
    have hal : al = true := h2.mpr (Or.inr rfl)
    have hmb : mb ≠ none := by
      rw [hal] at h1
      cases hc : mb
      · rw [hc] at h1
        simp at h1
      · simp
    subst hal
    simp only [loopReadByte]
    split_ifs with hf hmark hcrc
    · simp [bufInv, freeBuf, hmb]
    · simp [bufInv, freeBuf, hmb]
    · have hd := dispatchMsg_frees mm now
        (MuState.mk nm ibl obl LinkState.CRC hbp ml cmg mb true (fb ++ [c]) rn lc now lm)
        rfl (by simpa using hmb)
      simp only [bufInv]
      exact ⟨by simp [hd.2.1, hd.2.2], by simp [hd.2.1, hd.1]⟩
    · simp [bufInv]
      exact Option.ne_none_iff_isSome.mp hmb

theorem bufInv_loopTimeouts (now : Nat) (s : MuState) (h : bufInv s) :
    bufInv (loopTimeouts now s).1 := by
  obtain ⟨h1, h2⟩ := h
  obtain ⟨nm, ibl, obl, ls, hbp, ml, cmg, mb, al, fb, rn, lc, lr, lm⟩ := s
  simp only [MuState.allocated, MuState.msgBuf, MuState.linkState] at h1 h2
  cases ls with
  | SYNC =>
    have hal : al = false := by
      cases hc : al
      · rfl
      · have := h2.mp hc
        simp at this
    have hmb : mb = none := by
      rw [hal] at h1
      cases hc : mb
      · rfl
      · rw [hc] at h1
        simp at h1
    subst hal hmb
    clear h1 h2
    simp only [loopTimeouts]
    split_ifs <;> simp_all [bufInv, freeBuf]
  | HEADER =>
    have hal : al = false := by
      cases hc : al
      · rfl
      · have := h2.mp hc
        simp at this
    have hmb : mb = none := by
      rw [hal] at h1
      cases hc : mb
      · rfl
      · rw [hc] at h1
        simp at h1
    subst hal hmb
    clear h1 h2
    simp only [loopTimeouts]
    split_ifs <;> simp_all [bufInv, freeBuf]
  | MSG =>
    have hal : al = true := h2.mpr (Or.inl rfl)
    subst hal
    obtain ⟨x, hx⟩ : ∃ x, mb = some x := by
      cases hc : mb
      · rw [hc] at h1
        simp at h1
      · exact ⟨_, rfl⟩
    subst hx
    clear h1 h2
    simp only [loopTimeouts]
    split_ifs <;> simp_all [bufInv, freeBuf]
  | CRC =>
    have hal : al = true := h2.mpr (Or.inr rfl)
    subst hal
    obtain ⟨x, hx⟩ : ∃ x, mb = some x := by
      cases hc : mb
      · rw [hc] at h1
        simp at h1
      · exact ⟨_, rfl⟩
    subst hx
    clear h1 h2
    simp only [loopTimeouts]
    split_ifs <;> simp_all [bufInv, freeBuf]

/-- C5: invariant on the receiver state — whenever a payload buffer has
been allocated for a frame in progress (`bufInv` ties the `allocated`
flag and buffer pointer to the `MSG`/`CRC` states), the buffer is freed
and the flag cleared whenever the state machine is back in `SYNC`, on
every exit path: the invariant is preserved by every received byte
(successful dispatch, checksum mismatch, malformed terminator markers)
and by the timeout checks (read-timeout abort of a stuck partial
frame), and in `SYNC` no buffer is held. -/
theorem C5_payload_buffer_released (mm : Str → Str → Bool) (now : Nat)
    (s : MuState) (c : Nat) (h : bufInv s) :
    bufInv (loopReadByte mm now s c).1 ∧
    ((loopReadByte mm now s c).1.linkState = LinkState.SYNC →
      (loopReadByte mm now s c).1.allocated = false ∧
      (loopReadByte mm now s c).1.msgBuf = none) ∧
    bufInv (loopTimeouts now s).1 ∧
    ((loopTimeouts now s).1.linkState = LinkState.SYNC →
      (loopTimeouts now s).1.allocated = false ∧
      (loopTimeouts now s).1.msgBuf = none) := by
  have hb := bufInv_loopReadByte mm now s c h
  have hto := bufInv_loopTimeouts now s h
  exact ⟨hb, fun hS => bufInv_sync_free _ hb hS, hto,
    fun hS => bufInv_sync_free _ hto hS⟩

/-- Witness for C5 at the initial state and a concrete byte. -/
theorem C5_payload_buffer_released_witness :
    bufInv (loopReadByte mmNone 0 (initState [65]) 0).1 ∧
    (loopReadByte mmNone 0 (initState [65]) 0).1.allocated = false ∧
    (loopReadByte mmNone 0 (initState [65]) 0).1.msgBuf = none :=
  ⟨(C5_payload_buffer_released mmNone 0 (initState [65]) 0 ⟨rfl, by simp [initState]⟩).1,
   (C5_payload_buffer_released mmNone 0 (initState [65]) 0 ⟨rfl, by simp [initState]⟩).2.1
     (by decide)⟩

theorem loopReadByte_connected_mono (mm : Str → Str → Bool) (now : Nat)
    (s : MuState) (c : Nat) (h : s.linkConnected = true) :
    (loopReadByte mm now s c).1.linkConnected = true := by
  obtain ⟨nm, ibl, obl, ls, hbp, ml, cmg, mb, al, fb, rn, lc, lr, lm⟩ := s
  simp only [MuState.linkConnected] at h
  subst h
  cases ls with
  | SYNC => simp only [loopReadByte]; split_ifs <;> rfl
  | HEADER => simp only [loopReadByte]; split_ifs <;> rfl
  | MSG => simp only [loopReadByte]; split_ifs <;> rfl
  | CRC =>
    simp only [loopReadByte]
    split_ifs with hf hmark hcrc
    · simp [freeBuf_linkConnected]
    · simp [freeBuf_linkConnected]
    · exact (dispatchMsg_connected mm now _).2 rfl
    · rfl

theorem loopReadByte_connect_requires_ping (mm : Str → Str → Bool) (now : Nat)
    (s : MuState) (c : Nat) (h0 : s.linkConnected = false)
    (h : (loopReadByte mm now s c).1.linkConnected = true) :
    s.linkState = LinkState.CRC ∧ s.hdBuf.getD 3 0 = 0 := by
  obtain ⟨nm, ibl, obl, ls, hbp, ml, cmg, mb, al, fb, rn, lc, lr, lm⟩ := s
  simp only [MuState.linkConnected] at h0
  subst h0
  cases ls with
  | SYNC =>
    exfalso
    revert h
    simp only [loopReadByte]
    split_ifs <;> simp
  | HEADER =>
    exfalso
    revert h
    simp only [loopReadByte]
    split_ifs <;> simp
  | MSG =>
    exfalso
    revert h
    simp only [loopReadByte]
    split_ifs <;> simp
  | CRC =>
    refine ⟨rfl, ?_⟩
    revert h
    simp only [loopReadByte]
    split_ifs with hf hmark hcrc
    · simp [freeBuf_linkConnected]
    · simp [freeBuf_linkConnected]
    · intro h
      rcases (dispatchMsg_connected mm now _).1 h with h2 | h2
      · exact absurd h2 (by simp)
      · simpa using h2
    · simp

theorem loopTimeouts_no_connect (now : Nat) (s : MuState)
    (h : (loopTimeouts now s).1.linkConnected = true) : s.linkConnected = true := by
  revert h
  simp only [loopTimeouts]
  split_ifs <;> simp [freeBuf_linkConnected]

/-- C6 counterexample: a syntactically and checksum-valid FORWARD
frame is received and dispatched (one dispatch record with the exact
topic and message), yet `linkConnected` remains false: only a valid
PING frame establishes the connection, contrary to the claim's "any
valid PING or FORWARD frame". -/
theorem C6_counterexample :
    (loopReadBytes mmNone 0 (initState [65]) (sendOut 0 1 [116] [109])).2.2 =
      [⟨1, [116], [109]⟩] ∧
    (loopReadBytes mmNone 0 (initState [65]) (sendOut 0 1 [116] [109])).1.linkConnected
      = false := by
  decide

/-- C6 (amended): state-machine invariant for `linkConnected`: it is
never cleared by processing a single byte (however corrupt); a byte
step can set it true only when completing a frame in the `CRC` state
whose header command byte is PING; receiving a complete valid PING
frame from idle does set it true; and the timeout checks never set it
true.  Together with C7's timeout behaviour this shows `linkConnected`
becomes true only via a valid PING frame (not FORWARD) and false only
via the timeout paths. -/
theorem C6_linkConnected_transitions (mm : Str → Str → Bool) (now : Nat)
    (s s2 : MuState) (c num : Nat) (t m : Str)
    (hc : s.linkConnected = true)
    (hS : s2.linkState = LinkState.SYNC)
    (ht : ∀ x ∈ t, x ≠ 0) (hm : ∀ x ∈ m, x ≠ 0)
    (hlen : t.length + m.length + 2 < 1024) :
    (loopReadByte mm now s c).1.linkConnected = true ∧
    (∀ s3 c3, s3.linkConnected = false →
      (loopReadByte mm now s3 c3).1.linkConnected = true →
      s3.linkState = LinkState.CRC ∧ s3.hdBuf.getD 3 0 = 0) ∧
    (loopReadBytes mm now s2 (sendOut num 0 t m)).1.linkConnected = true ∧
    (∀ s4 now4, (loopTimeouts now4 s4).1.linkConnected = true →
      s4.linkConnected = true) :=
  ⟨loopReadByte_connected_mono mm now s c hc,
   fun s3 c3 h0 h => loopReadByte_connect_requires_ping mm now s3 c3 h0 h,
   (run_ping mm now s2 num t m hS ht hm hlen).2.2.2.2.2.1,
   fun s4 now4 h => loopTimeouts_no_connect now4 s4 h⟩

/-- Witness for C6 (amended): a concrete valid PING frame connects the
link, and a corrupt byte does not disconnect a connected link. -/
theorem C6_linkConnected_transitions_witness :
    (loopReadBytes mmNone 3 (initState [65]) (sendOut 0 0 [49] [66])).1.linkConnected
      = true ∧
    (loopReadByte mmNone 3 { initState [65] with linkConnected := true }
      255).1.linkConnected = true :=
  ⟨(C6_linkConnected_transitions mmNone 3
      { initState [65] with linkConnected := true } (initState [65]) 255 0 [49] [66]
      rfl rfl (by decide) (by decide) (by decide)).2.2.1,
   (C6_linkConnected_transitions mmNone 3
      { initState [65] with linkConnected := true } (initState [65]) 255 0 [49] [66]
      rfl rfl (by decide) (by decide) (by decide)).1⟩

/-- C7: if the receiver is idle (`SYNC`) while `linkConnected` is true
and the time since the last valid frame exceeds `pingReceiveTimeout`,
then the timeout check publishes exactly one disconnected event on
`"<localName>/link/<peerName>"`, clears `linkConnected`, and every
subsequent timeout check (at any later uptime, as long as no new
connection is established) publishes nothing and leaves the state
unchanged — so the event is emitted once, not once per scheduler
tick. -/
theorem C7_single_disconnect (s : MuState) (now : Nat)
    (hS : s.linkState = LinkState.SYNC) (hc : s.linkConnected = true)
    (hto : pingReceiveTimeout < now - s.lastMsg) :
    (loopTimeouts now s).2 =
      [⟨s.name ++ linkPath ++ s.remoteName, disconnectedMsg, s.name⟩] ∧
    (loopTimeouts now s).1.linkConnected = false ∧
    (loopTimeouts now s).1.linkState = LinkState.SYNC ∧
    (∀ now2, (loopTimeouts now2 (loopTimeouts now s).1).2 = [] ∧
      (loopTimeouts now2 (loopTimeouts now s).1).1 = (loopTimeouts now s).1) := by
  have hfire : loopTimeouts now s =
      ({ s with linkConnected := false },
       [⟨s.name ++ linkPath ++ s.remoteName, disconnectedMsg, s.name⟩]) := by
    simp [loopTimeouts, hS, hc, hto]
  rw [hfire]
  refine ⟨rfl, rfl, hS, ?_⟩
  intro now2
  constructor <;> simp [loopTimeouts, hS]

/-- Witness for C7 at a concrete state: node `"A"`, peer `"B"`,
connected, last message at uptime 0, checked at uptime 20. -/
theorem C7_single_disconnect_witness :
    (loopTimeouts 20
        { initState [65] with remoteName := [66], linkConnected := true }).2 =
      [⟨[65] ++ linkPath ++ [66], disconnectedMsg, [65]⟩] ∧
    (loopTimeouts 20
        { initState [65] with remoteName := [66], linkConnected := true
        }).1.linkConnected = false :=
  ⟨(C7_single_disconnect
      { initState [65] with remoteName := [66], linkConnected := true } 20
      rfl rfl (by decide)).1,
   (C7_single_disconnect
      { initState [65] with remoteName := [66], linkConnected := true } 20
      rfl rfl (by decide)).2.1⟩

/-- C8 counterexample: with node name `"A"` and peer `"B"`, a bus
message whose originator is this node's own name (`"A"`) is NOT
dropped: `subsMsg` only compares the originator against the peer name,
so the message is encoded and written to the serial port, contrary to
the claim's "dropped silently when its originator equals ... this
node's own name". -/
theorem C8_counterexample :
    subsMsg mmNone 0 { initState [65] with remoteName := [66] } [116] [109] [65] =
      [sendOut 0 1 [66, 47, 116] [109]] ∧
    [sendOut 0 1 [66, 47, 116] [109]] ≠ ([] : List (List Nat)) := by
  decide

/-- C8 (amended): a bus message delivered to the outbound handler is
dropped silently exactly when its originator equals the last known peer
name (messages originated under this node's own name are NOT filtered)
or when its topic matches a pattern in `outgoingBlockList`; otherwise
it is encoded as a FORWARD frame whose wire topic is the topic
unmodified if it already begins with `"<peerName>/"` and
`"<peerName>/" + topic` otherwise. -/
theorem C8_outbound_filter (mm : Str → Str → Bool) (num : Nat) (s : MuState)
    (topic msg originator : Str) :
    subsMsg mm num s topic msg originator =
      (if originator = s.remoteName then []
       else if s.outgoingBlockList.any (fun pat => mm topic pat) then []
       else if topic.take (s.remoteName.length + 1) = s.remoteName ++ [47] then
         [sendOut num 1 topic msg]
       else [sendOut num 1 (s.remoteName ++ [47] ++ topic) msg]) := by
  simp [subsMsg]

/-- C9 counterexample: adding a topic pattern that is already present
returns `false` — the same value the functions use to report failure
(their documented contract is "true on success, false if entry already
exists") — not a success indication as the claim states. -/
theorem C9_counterexample :
    (outgoingBlockSet [[97]] [97]).2 = false ∧
    (incomingBlockSet [[97]] [97]).2 = false := by
  decide

theorem outgoingBlockRemove_not_mem (l : List Str) (t : Str) (h : t ∉ l) :
    outgoingBlockRemove l t = (l, false) := by
  induction l with
  | nil => rfl
  | cons x xs ih =>
    have hx : ¬(x = t) := fun he => h (by simp [he])
    have h2 : t ∉ xs := fun hm => h (by simp [hm])
    simp [outgoingBlockRemove, hx, ih h2]

theorem incomingBlockRemove_not_mem (l : List Str) (t : Str) (h : t ∉ l) :
    incomingBlockRemove l t = (l, false) := by
  induction l with
  | nil => rfl
  | cons x xs ih =>
    have hx : ¬(x = t) := fun he => h (by simp [he])
    have h2 : t ∉ xs := fun hm => h (by simp [hm])
    simp [incomingBlockRemove, hx, ih h2]

/-- C9 (amended): adding a topic pattern that is already present is
idempotent — the list is unchanged — and returns `false` (the
already-present indication, identical to the failure value); removing
a pattern that is not present reports `false` and leaves the list
unchanged.  Neither case is fatal: both functions always return
normally. -/
theorem C9_blocklist_idempotent (l l2 : List Str) (t t2 : Str)
    (hin : t ∈ l) (hout : t2 ∉ l2) :
    outgoingBlockSet l t = (l, false) ∧ incomingBlockSet l t = (l, false) ∧
    outgoingBlockRemove l2 t2 = (l2, false) ∧
    incomingBlockRemove l2 t2 = (l2, false) := by
  refine ⟨?_, ?_, outgoingBlockRemove_not_mem l2 t2 hout,
    incomingBlockRemove_not_mem l2 t2 hout⟩
  · simp [outgoingBlockSet, hin]
  · simp [incomingBlockSet, hin]

/-- Witness for C9 (amended) on concrete one-element lists. -/
theorem C9_blocklist_idempotent_witness :
    outgoingBlockSet [[97]] [97] = ([[97]], false) ∧
    incomingBlockSet [[97]] [97] = ([[97]], false) ∧
    outgoingBlockRemove [[97]] [98] = ([[97]], false) ∧
    incomingBlockRemove [[97]] [98] = ([[97]], false) :=
  C9_blocklist_idempotent [[97]] [[97]] [97] [98] (by decide) (by decide)

/-- C10: a checksum-valid frame whose payload's first NUL byte sits at
an index `i` with `i + 2 > payloadLength` (the two NUL-terminated
strings cannot both fit) is a complete session no-op: nothing is
published, no frame is dispatched, `lastMsg`, `remoteName` and
`linkConnected` are unchanged (in particular the liveness timestamp is
NOT refreshed), while the payload buffer is still freed and the state
machine returns to `SYNC`. -/
theorem C10_short_payload_noop (mm : Str → Str → Bool) (now : Nat) (s : MuState)
    (num cmd : Nat) (p : List Nat) (hS : s.linkState = LinkState.SYNC)
    (hp : p.length < 1024) (hz : 0 ∈ p)
    (hshort : p.length < strlen p + 2) :
    (loopReadBytes mm now s (rawFrame num cmd p)).2.1 = [] ∧
    (loopReadBytes mm now s (rawFrame num cmd p)).2.2 = [] ∧
    (loopReadBytes mm now s (rawFrame num cmd p)).1.lastMsg = s.lastMsg ∧
    (loopReadBytes mm now s (rawFrame num cmd p)).1.remoteName = s.remoteName ∧
    (loopReadBytes mm now s (rawFrame num cmd p)).1.linkConnected = s.linkConnected ∧
    (loopReadBytes mm now s (rawFrame num cmd p)).1.linkState = LinkState.SYNC ∧
    (loopReadBytes mm now s (rawFrame num cmd p)).1.allocated = false ∧
    (loopReadBytes mm now s (rawFrame num cmd p)).1.msgBuf = none := by
  have hne : p ≠ [] := by
    rintro rfl
    simp at hz
  rw [run_raw mm now s num cmd p hS hp hne]
  rw [dispatchMsg_short mm now _ (by simpa using hshort)]
  refine ⟨rfl, rfl, ?_, ?_, ?_, ?_, ?_, ?_⟩ <;> simp [freeBuf]

/-- Witness for C10 at the one-byte payload `[NUL]`: its first NUL is
at index 0 and `0 + 2 > 1`. -/
theorem C10_short_payload_noop_witness :
    (loopReadBytes mmNone 9 (initState [65]) (rawFrame 0 1 [0])).2.1 = [] ∧
    (loopReadBytes mmNone 9 (initState [65]) (rawFrame 0 1 [0])).1.lastMsg = 0 ∧
    (loopReadBytes mmNone 9 (initState [65]) (rawFrame 0 1 [0])).1.linkState =
      LinkState.SYNC := by
  have h := C10_short_payload_noop mmNone 9 (initState [65]) 0 1 [0] rfl
    (by decide) (by decide) (by decide)
  exact ⟨h.1, h.2.2.1, h.2.2.2.2.2.1⟩
